import Mathlib

/-!
Verification of `autogluon/common/utils/cuml_accel_utils.py` and
`demo-cuml-accel.py` against their natural-language specification.

The Python module keeps two process-wide globals, `_activated_modules`
(a set of module-name strings) and `_accelerator` (a dict from module
name to an opaque `Accelerator` instance), and exposes
`is_cuml_accel_available`, `is_module_accelerated`,
`activate_cuml_accel_for_module` and `get_activated_modules`.

The embedding makes all effects explicit: the external cuml library is
an oracle (`Env`) saying how each external call would behave, the global
state is a `CumlState` value threaded through the activation routine,
and logging is a returned list of `LogEntry`.  Whole-process behaviour
is modelled by running a trace of activation calls from the empty
initial state.
-/

/-! ## Python string replacement

Line 99 of `cuml_accel_utils.py` computes
`module_name.replace("sklearn", "cuml.accel._wrappers.sklearn")`.
Python `str.replace` replaces every non-overlapping occurrence of the
pattern, scanning left to right.  `replaceListAux` embeds that scan on
character lists; the fuel argument (instantiated with the input length,
an upper bound on the number of steps) only makes the recursion
structural. -/

def replaceListAux (pat repl : List Char) : Nat → List Char → List Char
  | _, [] => []
  | 0, l => l
  | fuel + 1, c :: cs =>
    if pat ≠ [] ∧ pat <+: (c :: cs) then
      repl ++ replaceListAux pat repl fuel ((c :: cs).drop pat.length)
    else
      c :: replaceListAux pat repl fuel cs

/-- Embedding of Python `s.replace(pat, repl)` for a non-empty pattern
(the only way the source uses it). -/
def pyReplace (s pat repl : String) : String :=
  ⟨replaceListAux pat.data repl.data s.data.length s.data⟩

/-- Embedding of line 99 of `cuml_accel_utils.py`: the local variable
`wrapper_module = module_name.replace("sklearn", "cuml.accel._wrappers.sklearn")`. -/
def wrapper_module (module_name : String) : String :=
  pyReplace module_name "sklearn" "cuml.accel._wrappers.sklearn"

/-- Modelled from the spec's words, for comparison with `wrapper_module`
(which embeds the source): the spec describes the derivation as replacing
only the leading base-library token `sklearn` of the module name with
the accelerated-wrapper namespace token. -/
def specWrapperModule (module_name : String) : String :=
  if "sklearn".data <+: module_name.data then
    ⟨"cuml.accel._wrappers.sklearn".data ++
      module_name.data.drop "sklearn".data.length⟩
  else
    module_name

/-- If the pattern occurs nowhere in `l`, the replacement scan leaves `l`
unchanged. -/
theorem replaceListAux_no_occ (pat repl : List Char) :
    ∀ (fuel : Nat) (l : List Char), ¬ pat <:+: l → l.length ≤ fuel →
      replaceListAux pat repl fuel l = l := by
  intro fuel
  induction fuel with
  | zero =>
      intro l _ hlen
      have hnil : l = [] := List.eq_nil_of_length_eq_zero (Nat.le_zero.mp hlen)
      subst hnil
      rfl
  | succ f ih =>
      intro l hocc hlen
      cases l with
      | nil => rfl
      | cons c cs =>
          have hnp : ¬ (pat ≠ [] ∧ pat <+: (c :: cs)) := by
            rintro ⟨-, hp⟩
            exact hocc hp.isInfix
          rw [replaceListAux, if_neg hnp]
          have hcs : ¬ pat <:+: cs := fun h => hocc ( List.infix_cons h)
          rw [ih cs hcs (Nat.le_of_succ_le_succ hlen)]

/-- If the input is the pattern followed by a tail in which the pattern
does not occur again, the scan replaces exactly that single leading
occurrence. -/
theorem replaceListAux_single (pat repl rest : List Char) (hne : pat ≠ [])
    (hocc : ¬ pat <:+: rest) :
    ∀ (fuel : Nat), (pat ++ rest).length ≤ fuel →
      replaceListAux pat repl fuel (pat ++ rest) = repl ++ rest := by
  intro fuel hlen
  cases pat with
  | nil => exact absurd rfl hne
  | cons p ps =>
      cases fuel with
      | zero => simp at hlen
      | succ f =>
          rw [List.cons_append, replaceListAux, if_pos]
          · rw [← List.cons_append, List.drop_left]
            have hrest : rest.length ≤ f := by
              simp [List.length_append] at hlen
              omega
            rw [replaceListAux_no_occ (p :: ps) repl f rest hocc hrest]
          · exact ⟨hne, by rw [← List.cons_append]; exact List.prefix_append _ _⟩

/-- Claim C1, counterexample: the source derives the wrapper name with
Python `str.replace`, which substitutes every occurrence of `sklearn`,
not only the leading token.  On the input `"sklearn.sklearn"` the code
yields a different name than the leading-token substitution the claim
describes. -/
theorem claim_C1_counterexample :
    wrapper_module "sklearn.sklearn" ≠ specWrapperModule "sklearn.sklearn"
    ∧ wrapper_module "sklearn.sklearn"
        = "cuml.accel._wrappers.sklearn.cuml.accel._wrappers.sklearn"
    ∧ specWrapperModule "sklearn.sklearn"
        = "cuml.accel._wrappers.sklearn.sklearn" :=
  ⟨by decide, by decide, by decide⟩

/-- Claim C1 (amended): the wrapper module name is derived by replacing
every occurrence of the token `sklearn` with
`cuml.accel._wrappers.sklearn`.  For any module name that starts with
`sklearn` and contains no further occurrence of that token, this agrees
with replacing only the leading token; in particular
`"sklearn.ensemble"` maps to `"cuml.accel._wrappers.sklearn.ensemble"`. -/
theorem claim_C1 :
    (∀ m : String, "sklearn".data <+: m.data →
        ¬ "sklearn".data <:+: m.data.drop "sklearn".data.length →
        wrapper_module m =
          ⟨"cuml.accel._wrappers.sklearn".data ++
            m.data.drop "sklearn".data.length⟩)
    ∧ wrapper_module "sklearn.ensemble"
        = "cuml.accel._wrappers.sklearn.ensemble" := by
  constructor
  · intro m h1 h2
    obtain ⟨rest, hrest⟩ := h1
    have hdrop : m.data.drop "sklearn".data.length = rest := by
      rw [← hrest, List.drop_left]
    rw [hdrop] at h2 ⊢
    unfold wrapper_module pyReplace
    rw [← hrest]
    exact congrArg String.mk
      (replaceListAux_single "sklearn".data "cuml.accel._wrappers.sklearn".data
        rest (by decide) h2 _ (Nat.le_refl _))
  · decide

/-- Witness for claim C1 at the concrete input `"sklearn.ensemble"`. -/
theorem claim_C1_witness :
    wrapper_module "sklearn.ensemble" =
      ⟨"cuml.accel._wrappers.sklearn".data ++
        "sklearn.ensemble".data.drop "sklearn".data.length⟩ :=
  claim_C1.1 "sklearn.ensemble" (by decide) (by decide)

/-! ## The external library as an oracle

`cuml` is an opaque external collaborator.  An `Env` records how each
external interaction performed by the source would behave at one call:
what the statement `import cuml.accel` does (line 28; executing
the imported module's top-level code may raise exceptions other than
`ImportError`, and only `ImportError` signals unavailability), whether
the component imports on lines 90-91 raise, what constructing
`Accelerator(exclude=...)` on line 94 does, and whether
`accelerator.register(...)` (line 102) and `accelerator.install()`
(line 103) raise.  Exceptions are represented by their message string;
`none` means the call returns normally. -/

inductive ImportOutcome where
  | ok : ImportOutcome
  | importError : ImportOutcome
  | raises : String → ImportOutcome
deriving DecidableEq

/-- An opaque external `Accelerator` instance, identified by a tag. -/
structure Accelerator where
  accelId : Nat
deriving DecidableEq

structure Env where
  cumlImport : ImportOutcome
  componentsImport : Option String
  construct : Except String Accelerator
  register : String → String → Option String
  install : Option String

/-- One `logger.log(level, msg)` call (the source always uses level 15). -/
structure LogEntry where
  level : Nat
  msg : String
deriving DecidableEq

/-- The module-level globals of `cuml_accel_utils.py` (lines 14-15):
`_activated_modules` is a Python `set`, `_accelerator` a dict mapping
module name to its `Accelerator` instance. -/
structure CumlState where
  _activated_modules : List String
  _accelerator : List (String × Accelerator)
deriving DecidableEq

/-- Both globals start empty at process start. -/
def initialState : CumlState := ⟨[], []⟩

/-- Python `set.add`: a no-op when the element is already present. -/
def setAdd (s : List String) (x : String) : List String :=
  if x ∈ s then s else s ++ [x]

/-- Python dict assignment `d[k] = v`: update the existing entry for `k`
or append a new one. -/
def dictInsert (d : List (String × Accelerator)) (k : String) (v : Accelerator) :
    List (String × Accelerator) :=
  match d with
  | [] => [(k, v)]
  | (k', v') :: rest =>
      if k' = k then (k, v) :: rest else (k', v') :: dictInsert rest k v

/-- Embedding of `is_cuml_accel_available` (lines 18-31): try
`import cuml.accel`, return `True` on success, `False` on
`ImportError`; any other exception escapes the `except ImportError`
clause and propagates. -/
def is_cuml_accel_available (env : Env) : Except String Bool :=
  match env.cumlImport with
  | .ok => .ok true
  | .importError => .ok false
  | .raises e => .error e

/-- Embedding of `is_module_accelerated` (lines 34-48):
`module_name in _activated_modules`. -/
def is_module_accelerated (st : CumlState) (module_name : String) : Bool :=
  decide (module_name ∈ st._activated_modules)

/-- The log messages emitted by `activate_cuml_accel_for_module`
(lines 80, 85, 95, 108, 113), f-strings over the module name and the
caught exception. -/
def alreadyMsg (m : String) : String :=
  "cuML acceleration already active for " ++ m

def unavailMsg (m : String) : String :=
  "cuml.accel not available, cannot accelerate " ++ m

def createdMsg (m : String) : String :=
  "Created cuML Accelerator instance for " ++ m

def successMsg (m : String) : String :=
  "Successfully activated cuML acceleration for " ++ m

def failMsg (m e : String) : String :=
  "Failed to activate cuML acceleration for " ++ m ++ ": " ++ e

/-- The outcome of one call to the activation routine: the returned (or
propagated) value, the global state afterwards, and the log records
emitted during the call. -/
structure ActResult where
  ret : Except String Bool
  state : CumlState
  logs : List LogEntry

/-- Embedding of `activate_cuml_accel_for_module` (lines 51-114).

Branches, in source order: the already-activated fast path (lines
79-81); the availability check (lines 84-86), whose call to
`is_cuml_accel_available` sits outside the `try` block, so a
non-`ImportError` exception raised by `import cuml.accel` propagates;
then the `try` block (lines 88-114) in which the component imports, the
`Accelerator` construction, `register` and `install` each may raise,
every exception being caught by the `except Exception` clause, logged,
and turned into `False` with the globals untouched.  Only when
`install()` returns normally are both globals updated (lines 106-107). -/
def activate_cuml_accel_for_module (env : Env) (st : CumlState)
    (module_name : String) : ActResult :=
  if module_name ∈ st._activated_modules then
    ⟨.ok true, st, [⟨15, alreadyMsg module_name⟩]⟩
  else
    match is_cuml_accel_available env with
    | .error e => ⟨.error e, st, []⟩
    | .ok false => ⟨.ok false, st, [⟨15, unavailMsg module_name⟩]⟩
    | .ok true =>
        match env.componentsImport with
        | some e => ⟨.ok false, st, [⟨15, failMsg module_name e⟩]⟩
        | none =>
            match env.construct with
            | .error e => ⟨.ok false, st, [⟨15, failMsg module_name e⟩]⟩
            | .ok accelerator =>
                match env.register module_name (wrapper_module module_name) with
                | some e =>
                    ⟨.ok false, st,
                      [⟨15, createdMsg module_name⟩, ⟨15, failMsg module_name e⟩]⟩
                | none =>
                    match env.install with
                    | some e =>
                        ⟨.ok false, st,
                          [⟨15, createdMsg module_name⟩, ⟨15, failMsg module_name e⟩]⟩
                    | none =>
                        ⟨.ok true,
                          ⟨setAdd st._activated_modules module_name,
                            dictInsert st._accelerator module_name accelerator⟩,
                          [⟨15, createdMsg module_name⟩, ⟨15, successMsg module_name⟩]⟩

/-- Embedding of `get_activated_modules` (lines 117-126), which returns
`_activated_modules.copy()`.  The value of the snapshot is the current
set; the aliasing aspect of `.copy()` is modelled separately by the
heap model below. -/
def get_activated_modules (st : CumlState) : List String :=
  st._activated_modules

/-- The `try` block raises: at least one of the external calls performed
inside the `try` of `activate_cuml_accel_for_module` (component imports,
`Accelerator` construction, `register`, `install`) raises an exception. -/
def tryBlockRaises (env : Env) (m : String) : Prop :=
  env.componentsImport ≠ none
    ∨ (∃ e, env.construct = .error e)
    ∨ env.register m (wrapper_module m) ≠ none
    ∨ env.install ≠ none

/-- A call that activates a module afresh: the module was not yet
recorded active and the call returned `True`. -/
@[reducible] def succFresh (env : Env) (st : CumlState) (m : String) : Prop :=
  m ∉ st._activated_modules
    ∧ (activate_cuml_accel_for_module env st m).ret = .ok true

/-- Exhaustive case analysis of one activation call. -/
theorem activate_spec (env : Env) (st : CumlState) (m : String) :
    (m ∈ st._activated_modules ∧
      activate_cuml_accel_for_module env st m
        = ⟨.ok true, st, [⟨15, alreadyMsg m⟩]⟩)
    ∨ (m ∉ st._activated_modules ∧ ∃ e, env.cumlImport = .raises e ∧
        activate_cuml_accel_for_module env st m = ⟨.error e, st, []⟩)
    ∨ (m ∉ st._activated_modules ∧ env.cumlImport = .importError ∧
        activate_cuml_accel_for_module env st m
          = ⟨.ok false, st, [⟨15, unavailMsg m⟩]⟩)
    ∨ (m ∉ st._activated_modules ∧ env.cumlImport = .ok ∧ tryBlockRaises env m ∧
        (activate_cuml_accel_for_module env st m).ret = .ok false ∧
        (activate_cuml_accel_for_module env st m).state = st ∧
        ∃ e, (⟨15, failMsg m e⟩ : LogEntry)
          ∈ (activate_cuml_accel_for_module env st m).logs)
    ∨ (m ∉ st._activated_modules ∧ env.cumlImport = .ok ∧
        env.componentsImport = none ∧ env.register m (wrapper_module m) = none ∧
        env.install = none ∧ ∃ a, env.construct = .ok a ∧
        activate_cuml_accel_for_module env st m
          = ⟨.ok true,
              ⟨setAdd st._activated_modules m, dictInsert st._accelerator m a⟩,
              [⟨15, createdMsg m⟩, ⟨15, successMsg m⟩]⟩) := by
  by_cases h0 : m ∈ st._activated_modules
  · exact Or.inl ⟨h0, by rw [activate_cuml_accel_for_module, if_pos h0]⟩
  · rw [activate_cuml_accel_for_module, if_neg h0, is_cuml_accel_available]
    cases henv : env.cumlImport with
    | raises e => exact Or.inr (Or.inl ⟨h0, e, rfl, rfl⟩)
    | importError => exact Or.inr (Or.inr (Or.inl ⟨h0, rfl, rfl⟩))
    | ok =>
        cases hci : env.componentsImport with
        | some e =>
            refine Or.inr (Or.inr (Or.inr (Or.inl ⟨h0, rfl, Or.inl ?_, rfl, rfl, e, ?_⟩)))
            · rw [hci]; exact Option.some_ne_none e
            · exact List.mem_singleton.mpr rfl
        | none =>
            cases hc : env.construct with
            | error e =>
                refine Or.inr (Or.inr (Or.inr (Or.inl
                  ⟨h0, rfl, Or.inr (Or.inl ⟨e, hc⟩), rfl, rfl, e, ?_⟩)))
                exact List.mem_singleton.mpr rfl
            | ok a =>
                cases hr : env.register m (wrapper_module m) with
                | some e =>
                    refine Or.inr (Or.inr (Or.inr (Or.inl
                      ⟨h0, rfl, Or.inr (Or.inr (Or.inl ?_)), rfl, rfl, e, ?_⟩)))
                    · rw [hr]; exact Option.some_ne_none e
                    · exact List.mem_cons_of_mem _ (List.mem_singleton.mpr rfl)
                | none =>
                    cases hi : env.install with
                    | some e =>
                        refine Or.inr (Or.inr (Or.inr (Or.inl
                          ⟨h0, rfl, Or.inr (Or.inr (Or.inr ?_)), rfl, rfl, e, ?_⟩)))
                        · rw [hi]; exact Option.some_ne_none e
                        · exact List.mem_cons_of_mem _ (List.mem_singleton.mpr rfl)
                    | none =>
                        exact Or.inr (Or.inr (Or.inr (Or.inr
                          ⟨h0, rfl, rfl, rfl, rfl, a, rfl, rfl⟩)))

theorem mem_setAdd {s : List String} {x y : String} :
    y ∈ setAdd s x ↔ y = x ∨ y ∈ s := by
  unfold setAdd
  by_cases h : x ∈ s
  · rw [if_pos h]
    constructor
    · exact Or.inr
    · rintro (rfl | hy)
      · exact h
      · exact hy
  · rw [if_neg h]
    simp [List.mem_append, or_comm]

theorem mem_dictInsert (d : List (String × Accelerator)) (k x : String)
    (v : Accelerator) :
    (∃ a, (x, a) ∈ dictInsert d k v) ↔ x = k ∨ ∃ a, (x, a) ∈ d := by
  induction d with
  | nil => simp [dictInsert]
  | cons p rest ih =>
      obtain ⟨k', v'⟩ := p
      rw [dictInsert]
      by_cases h : k' = k
      · subst h
        rw [if_pos rfl]
        simp only [List.mem_cons, Prod.mk.injEq]
        constructor
        · rintro ⟨a, ⟨rfl, rfl⟩ | ha⟩
          · exact Or.inl rfl
          · exact Or.inr ⟨a, Or.inr ha⟩
        · rintro (rfl | ⟨a, ⟨rfl, rfl⟩ | ha⟩)
          · exact ⟨v, Or.inl ⟨rfl, rfl⟩⟩
          · exact ⟨v, Or.inl ⟨rfl, rfl⟩⟩
          · exact ⟨a, Or.inr ha⟩
      · rw [if_neg h]
        simp only [List.mem_cons, Prod.mk.injEq]
        constructor
        · rintro ⟨a, ⟨rfl, rfl⟩ | ha⟩
          · exact Or.inr ⟨_, Or.inl ⟨rfl, rfl⟩⟩
          · rcases ih.mp ⟨a, ha⟩ with h1 | ⟨b, hb⟩
            · exact Or.inl h1
            · exact Or.inr ⟨b, Or.inr hb⟩
        · rintro (rfl | ⟨a, ⟨rfl, rfl⟩ | ha⟩)
          · obtain ⟨b, hb⟩ := ih.mpr (Or.inl rfl)
            exact ⟨b, Or.inr hb⟩
          · exact ⟨_, Or.inl ⟨rfl, rfl⟩⟩
          · obtain ⟨b, hb⟩ := ih.mpr (Or.inr ⟨a, ha⟩)
            exact ⟨b, Or.inr hb⟩

/-- An environment in which every external call succeeds. -/
def envOk : Env :=
  ⟨.ok, none, .ok ⟨0⟩, fun _ _ => none, none⟩

/-- An environment in which `cuml.accel` is installed but
`accelerator.install()` raises. -/
def envInstallFail : Env :=
  ⟨.ok, none, .ok ⟨0⟩, fun _ _ => none, some "CudaRuntimeError"⟩

/-- An environment in which `import cuml.accel` raises `ImportError`:
the optional package is not installed. -/
def envUnavailable : Env :=
  ⟨.importError, none, .ok ⟨0⟩, fun _ _ => none, none⟩

/-- An environment in which `import cuml.accel` raises an exception that
is not an `ImportError` (the imported module's top-level code fails). -/
def envImportCrash : Env :=
  ⟨.raises "RuntimeError: CUDA driver initialization failed", none, .ok ⟨0⟩,
    fun _ _ => none, none⟩

/-- Claim C2: whenever one of the external calls inside the `try` block
(component imports, `Accelerator` construction, `register`, `install`)
raises, the activation routine catches the exception, logs it at the
low diagnostic level 15, and returns `False` with both globals
unchanged; the exception is not propagated. -/
theorem claim_C2 (env : Env) (st : CumlState) (m : String)
    (h0 : m ∉ st._activated_modules) (h1 : env.cumlImport = .ok)
    (h2 : tryBlockRaises env m) :
    (activate_cuml_accel_for_module env st m).ret = .ok false
    ∧ (activate_cuml_accel_for_module env st m).state = st
    ∧ ∃ e, (⟨15, failMsg m e⟩ : LogEntry)
        ∈ (activate_cuml_accel_for_module env st m).logs := by
  rcases activate_spec env st m with
    ⟨hmem, -⟩ | ⟨-, e, he, -⟩ | ⟨-, hie, -⟩ |
    ⟨-, -, -, hret, hstate, hlog⟩ | ⟨-, -, hci, hr, hi, a, hc, -⟩
  · exact absurd hmem h0
  · rw [h1] at he
    exact ImportOutcome.noConfusion he
  · rw [h1] at hie
    exact ImportOutcome.noConfusion hie
  · exact ⟨hret, hstate, hlog⟩
  · rcases h2 with h | ⟨e, h⟩ | h | h
    · exact absurd hci h
    · rw [hc] at h
      exact Except.noConfusion h
    · exact absurd hr h
    · exact absurd hi h

/-- Witness for claim C2: a failing `install()` call on a fresh module. -/
theorem claim_C2_witness :
    (activate_cuml_accel_for_module envInstallFail initialState
        "sklearn.ensemble").ret = .ok false
    ∧ (activate_cuml_accel_for_module envInstallFail initialState
        "sklearn.ensemble").state = initialState
    ∧ ∃ e, (⟨15, failMsg "sklearn.ensemble" e⟩ : LogEntry)
        ∈ (activate_cuml_accel_for_module envInstallFail initialState
            "sklearn.ensemble").logs :=
  claim_C2 envInstallFail initialState "sklearn.ensemble" (by decide) rfl
    (Or.inr (Or.inr (Or.inr (by decide))))

/-- Claim C3: activation is idempotent.  If a call for `m` returned
`True`, any later call for `m` (under an arbitrary environment, so no
external registration or installation is consulted) returns `True`
immediately, leaves the state unchanged, and only logs the
already-active message. -/
theorem claim_C3 (env env' : Env) (st : CumlState) (m : String)
    (h : (activate_cuml_accel_for_module env st m).ret = .ok true) :
    activate_cuml_accel_for_module env'
        (activate_cuml_accel_for_module env st m).state m
      = ⟨.ok true, (activate_cuml_accel_for_module env st m).state,
          [⟨15, alreadyMsg m⟩]⟩ := by
  have hmem : m ∈ (activate_cuml_accel_for_module env st m).state._activated_modules := by
    rcases activate_spec env st m with
      ⟨hm, heq⟩ | ⟨-, e, -, heq⟩ | ⟨-, -, heq⟩ |
      ⟨-, -, -, hret, -, -⟩ | ⟨-, -, -, -, -, a, -, heq⟩
    · rw [heq]
      exact hm
    · rw [heq] at h
      exact absurd h (by simp)
    · rw [heq] at h
      exact absurd h (by simp)
    · rw [hret] at h
      exact absurd h (by simp)
    · rw [heq]
      exact mem_setAdd.mpr (Or.inl rfl)
  rw [activate_cuml_accel_for_module, if_pos hmem]

/-- Witness for claim C3: activate `"sklearn.ensemble"` successfully,
then call again under an environment whose `install` would raise; the
second call still returns `True` with the state unchanged. -/
theorem claim_C3_witness :
    activate_cuml_accel_for_module envInstallFail
        (activate_cuml_accel_for_module envOk initialState
          "sklearn.ensemble").state "sklearn.ensemble"
      = ⟨.ok true,
          (activate_cuml_accel_for_module envOk initialState
            "sklearn.ensemble").state,
          [⟨15, alreadyMsg "sklearn.ensemble"⟩]⟩ :=
  claim_C3 envOk envInstallFail initialState "sklearn.ensemble" rfl

/-- Claim C4: for a module not yet recorded active, when the optional
package cannot be imported (`import cuml.accel` raises `ImportError`),
activation returns `False` and leaves both globals unchanged. -/
theorem claim_C4 (env : Env) (st : CumlState) (m : String)
    (h0 : m ∉ st._activated_modules) (h1 : env.cumlImport = .importError) :
    activate_cuml_accel_for_module env st m
      = ⟨.ok false, st, [⟨15, unavailMsg m⟩]⟩ := by
  rcases activate_spec env st m with
    ⟨hmem, -⟩ | ⟨-, e, he, -⟩ | ⟨-, -, heq⟩ |
    ⟨-, hok, -, -, -, -⟩ | ⟨-, hok, -, -, -, a, -, -⟩
  · exact absurd hmem h0
  · rw [h1] at he
    exact ImportOutcome.noConfusion he
  · exact heq
  · rw [h1] at hok
    exact ImportOutcome.noConfusion hok
  · rw [h1] at hok
    exact ImportOutcome.noConfusion hok

/-- Witness for claim C4: `cuml.accel` missing, fresh module name. -/
theorem claim_C4_witness :
    activate_cuml_accel_for_module envUnavailable initialState
        "sklearn.ensemble"
      = ⟨.ok false, initialState, [⟨15, unavailMsg "sklearn.ensemble"⟩]⟩ :=
  claim_C4 envUnavailable initialState "sklearn.ensemble" (by decide) rfl

/-! ## Whole-process traces

A process run is a sequence of calls to the activation routine, each
under its own external environment (queries never change the globals,
so they need not appear in a trace).  `runTrace` folds the state effect
of the calls starting from the empty initial state; a state is
reachable exactly when some trace produces it. -/

def stepState (st : CumlState) (call : Env × String) : CumlState :=
  (activate_cuml_accel_for_module call.1 st call.2).state

def runFrom (st : CumlState) : List (Env × String) → CumlState
  | [] => st
  | call :: rest => runFrom (stepState st call) rest

def runTrace (t : List (Env × String)) : CumlState :=
  runFrom initialState t

/-- Membership in the activated set after one call: the module names
recorded active are those already recorded plus, exactly when the call
freshly succeeded, the module of the call. -/
theorem mem_activate_state_iff (env : Env) (st : CumlState) (mc x : String) :
    x ∈ (activate_cuml_accel_for_module env st mc).state._activated_modules
      ↔ x ∈ st._activated_modules
        ∨ (mc = x ∧ mc ∉ st._activated_modules
            ∧ (activate_cuml_accel_for_module env st mc).ret = .ok true) := by
  rcases activate_spec env st mc with
    ⟨hm, heq⟩ | ⟨hm, e, he, heq⟩ | ⟨hm, hie, heq⟩ |
    ⟨hm, hok, htry, hret, hstate, hlog⟩ | ⟨hm, hok, hci, hr, hi, a, hc, heq⟩
  · rw [heq]
    constructor
    · exact fun h => Or.inl h
    · rintro (h | ⟨rfl, hf, -⟩)
      · exact h
      · exact absurd hm hf
  · rw [heq]
    constructor
    · exact fun h => Or.inl h
    · rintro (h | ⟨rfl, -, hret⟩)
      · exact h
      · exact absurd hret (by simp)
  · rw [heq]
    constructor
    · exact fun h => Or.inl h
    · rintro (h | ⟨rfl, -, hret⟩)
      · exact h
      · exact absurd hret (by simp)
  · rw [hstate]
    constructor
    · exact fun h => Or.inl h
    · rintro (h | ⟨rfl, -, hret2⟩)
      · exact h
      · rw [hret] at hret2
        exact absurd hret2 (by simp)
  · rw [heq]
    constructor
    · intro h
      rcases mem_setAdd.mp h with rfl | h2
      · exact Or.inr ⟨rfl, hm, rfl⟩
      · exact Or.inl h2
    · rintro (h | ⟨rfl, -, -⟩)
      · exact mem_setAdd.mpr (Or.inr h)
      · exact mem_setAdd.mpr (Or.inl rfl)

/-- Membership in the activated set after running a trace from an
arbitrary state: a name is present afresh exactly when some call of the
trace freshly succeeded for it. -/
theorem mem_runFrom_iff (t : List (Env × String)) :
    ∀ (st : CumlState) (x : String),
      x ∈ (runFrom st t)._activated_modules
        ↔ x ∈ st._activated_modules
          ∨ ∃ t1 c t2, t = t1 ++ c :: t2 ∧ c.2 = x
              ∧ succFresh c.1 (runFrom st t1) c.2 := by
  induction t with
  | nil =>
      intro st x
      constructor
      · exact fun h => Or.inl h
      · rintro (h | ⟨t1, c, t2, heq, -, -⟩)
        · exact h
        · exact absurd heq.symm (by simp)
  | cons c rest ih =>
      intro st x
      rw [show runFrom st (c :: rest) = runFrom (stepState st c) rest from rfl]
      rw [ih (stepState st c) x]
      simp only [stepState]
      rw [mem_activate_state_iff]
      constructor
      · rintro ((h | ⟨hcx, hnm, hret⟩) | ⟨t1, c', t2, rfl, hx, hs⟩)
        · exact Or.inl h
        · exact Or.inr ⟨[], c, rest, rfl, hcx, hnm, hret⟩
        · exact Or.inr ⟨c :: t1, c', t2, rfl, hx, hs⟩
      · rintro (h | ⟨t1, c', t2, heq, hx, hs⟩)
        · exact Or.inl (Or.inl h)
        · cases t1 with
          | nil =>
              rw [List.nil_append] at heq
              injection heq with h1 h2
              subst h1
              subst h2
              exact Or.inl (Or.inr ⟨hx, hs.1, hs.2⟩)
          | cons d t1' =>
              rw [List.cons_append] at heq
              injection heq with h1 h2
              subst h1
              subst h2
              exact Or.inr ⟨t1', c', t2, rfl, hx, hs⟩

/-- Running an appended trace runs the two parts in sequence. -/
theorem runFrom_append (t t' : List (Env × String)) :
    ∀ st : CumlState, runFrom st (t ++ t') = runFrom (runFrom st t) t' := by
  induction t with
  | nil => exact fun st => rfl
  | cons c rest ih =>
      intro st
      rw [List.cons_append]
      exact ih (stepState st c)

/-- Claim C5: in every reachable state, a module name is recorded
active iff some earlier call freshly activated it, i.e. returned `True`
for it from a state where it was not yet recorded; and such a fresh
success forces every external step of the `try` block, in particular
`register` and `install`, to have completed without raising. -/
theorem claim_C5 :
    (∀ (t : List (Env × String)) (m : String),
      m ∈ (runTrace t)._activated_modules
        ↔ ∃ t1 c t2, t = t1 ++ c :: t2 ∧ c.2 = m
            ∧ succFresh c.1 (runTrace t1) c.2)
    ∧ (∀ (env : Env) (st : CumlState) (m : String), succFresh env st m →
        env.cumlImport = .ok ∧ env.componentsImport = none
        ∧ (∃ a, env.construct = .ok a)
        ∧ env.register m (wrapper_module m) = none ∧ env.install = none) := by
  constructor
  · intro t m
    simp only [runTrace]
    rw [mem_runFrom_iff]
    simp [initialState]
  · intro env st m hf
    obtain ⟨hnm, hret⟩ := hf
    rcases activate_spec env st m with
      ⟨hmem, -⟩ | ⟨-, e, -, heq⟩ | ⟨-, -, heq⟩ |
      ⟨-, -, -, hret4, -, -⟩ | ⟨-, hok, hci, hr, hi, a, hc, -⟩
    · exact absurd hmem hnm
    · rw [heq] at hret
      exact absurd hret (by simp)
    · rw [heq] at hret
      exact absurd hret (by simp)
    · rw [hret4] at hret
      exact absurd hret (by simp)
    · exact ⟨hok, hci, ⟨a, hc⟩, hr, hi⟩

/-- Witness for claim C5: a one-call trace activating
`"sklearn.ensemble"` makes it a member, and the fresh success under
`envOk` forces `install` not to have raised. -/
theorem claim_C5_witness :
    "sklearn.ensemble" ∈ (runTrace [(envOk, "sklearn.ensemble")])._activated_modules
    ∧ envOk.install = none :=
  ⟨(claim_C5.1 [(envOk, "sklearn.ensemble")] "sklearn.ensemble").mpr
      ⟨[], (envOk, "sklearn.ensemble"), [], rfl, rfl, by decide, rfl⟩,
    (claim_C5.2 envOk initialState "sklearn.ensemble" ⟨by decide, rfl⟩).2.2.2.2⟩

/-- Claim C8: the activated-module set starts empty, a single
activation call never removes a member, and a name once recorded active
stays recorded active after any further calls in the process. -/
theorem claim_C8 :
    initialState._activated_modules = []
    ∧ (∀ (env : Env) (st : CumlState) (m x : String),
        x ∈ st._activated_modules →
        x ∈ (activate_cuml_accel_for_module env st m).state._activated_modules)
    ∧ (∀ (t t' : List (Env × String)) (x : String),
        is_module_accelerated (runTrace t) x = true →
        is_module_accelerated (runTrace (t ++ t')) x = true) := by
  refine ⟨rfl, ?_, ?_⟩
  · intro env st m x h
    exact (mem_activate_state_iff env st m x).mpr (Or.inl h)
  · intro t t' x h
    simp only [is_module_accelerated, decide_eq_true_eq] at h ⊢
    rw [runTrace, runFrom_append]
    have hmono : ∀ (t₂ : List (Env × String)) (st : CumlState),
        x ∈ st._activated_modules → x ∈ (runFrom st t₂)._activated_modules := by
      intro t₂
      induction t₂ with
      | nil => exact fun st h2 => h2
      | cons c rest ih =>
          intro st h2
          exact ih (stepState st c)
            ((mem_activate_state_iff c.1 st c.2 x).mpr (Or.inl h2))
    exact hmono t' (runFrom initialState t) h

/-- Witness for claim C8: `"sklearn.ensemble"`, activated by the first
call of a trace, is still recorded active after a later failing call
for another module. -/
theorem claim_C8_witness :
    is_module_accelerated
        (runTrace ([(envOk, "sklearn.ensemble")]
          ++ [(envInstallFail, "sklearn.neighbors")])) "sklearn.ensemble"
      = true :=
  claim_C8.2.2 [(envOk, "sklearn.ensemble")] [(envInstallFail, "sklearn.neighbors")]
    "sklearn.ensemble" (by decide)

/-- The key-set invariant relating the two globals: a handle is stored
for a module name exactly when that name is recorded active. -/
def accelKeyInv (st : CumlState) : Prop :=
  ∀ x : String, (∃ a, (x, a) ∈ st._accelerator) ↔ x ∈ st._activated_modules

/-- One activation call preserves the key-set invariant. -/
theorem accelKeyInv_step (env : Env) (st : CumlState) (m : String)
    (hinv : accelKeyInv st) :
    accelKeyInv (activate_cuml_accel_for_module env st m).state := by
  rcases activate_spec env st m with
    ⟨-, heq⟩ | ⟨-, e, -, heq⟩ | ⟨-, -, heq⟩ |
    ⟨-, -, -, -, hstate, -⟩ | ⟨-, -, -, -, -, a, -, heq⟩
  · rw [heq]
    exact hinv
  · rw [heq]
    exact hinv
  · rw [heq]
    exact hinv
  · rw [hstate]
    exact hinv
  · rw [heq]
    intro x
    show (∃ b, (x, b) ∈ dictInsert st._accelerator m a)
      ↔ x ∈ setAdd st._activated_modules m
    rw [mem_dictInsert, hinv x]
    exact (mem_setAdd (s := st._activated_modules) (x := m) (y := x)).symm

/-- Claim C10 (implicit): both globals start empty and, in every
reachable state, the key set of the accelerator handle table coincides
with the activated-module set: a handle exists for a module name
exactly when that module is recorded active. -/
theorem claim_C10 :
    initialState._activated_modules = []
    ∧ initialState._accelerator = []
    ∧ ∀ (t : List (Env × String)) (x : String),
        (∃ a, (x, a) ∈ (runTrace t)._accelerator)
          ↔ x ∈ (runTrace t)._activated_modules := by
  refine ⟨rfl, rfl, ?_⟩
  have hrun : ∀ (t : List (Env × String)) (st : CumlState),
      accelKeyInv st → accelKeyInv (runFrom st t) := by
    intro t
    induction t with
    | nil => exact fun st h => h
    | cons c rest ih =>
        intro st h
        exact ih (stepState st c) (accelKeyInv_step c.1 st c.2 h)
  intro t x
  have hinit : accelKeyInv initialState := by
    intro y
    simp [initialState]
  exact hrun t initialState hinit x

/-! ## Object model for the snapshot copy

`get_activated_modules` returns `_activated_modules.copy()` (line 126).
That a later mutation of the returned set does not touch the global is
a statement about Python object aliasing, so it is modelled on a small
heap of set objects: each cell holds the contents of one Python `set`,
cell `activatedAddr` is the global `_activated_modules`, and `.copy()`
allocates a fresh cell with the same contents. -/

structure PyHeap where
  cells : List (List String)
deriving DecidableEq

/-- The address of the global `_activated_modules` object. -/
def activatedAddr : Nat := 0

/-- At process start the heap holds just the empty global set. -/
def initHeap : PyHeap := ⟨[[]]⟩

def readCell (h : PyHeap) (addr : Nat) : List String :=
  h.cells.getD addr []

/-- Allocate a fresh set object, returning its (fresh) address. -/
def allocCell (h : PyHeap) (v : List String) : Nat × PyHeap :=
  (h.cells.length, ⟨h.cells ++ [v]⟩)

/-- Mutate the set object at `addr` (e.g. a caller doing `.add(x)` or
any other in-place update on it). -/
def writeCell (h : PyHeap) (addr : Nat) (v : List String) : PyHeap :=
  ⟨h.cells.set addr v⟩

/-- Embedding of `get_activated_modules` (lines 117-126) at the object
level: `return _activated_modules.copy()` allocates a new set with the
contents of the global and returns it. -/
def get_activated_modules_obj (h : PyHeap) : Nat × PyHeap :=
  allocCell h (readCell h activatedAddr)

/-- Claim C9: `get_activated_modules` returns a snapshot whose contents
equal the current internal set; it changes no existing object (in
particular not the internal set); and any later mutation of the
returned object leaves the internal set as it was. -/
theorem claim_C9 (h : PyHeap) (hne : h.cells ≠ []) :
    readCell (get_activated_modules_obj h).2 (get_activated_modules_obj h).1
      = readCell h activatedAddr
    ∧ (∀ b, b < h.cells.length →
        readCell (get_activated_modules_obj h).2 b = readCell h b)
    ∧ ∀ v, readCell
        (writeCell (get_activated_modules_obj h).2
          (get_activated_modules_obj h).1 v) activatedAddr
      = readCell h activatedAddr := by
  refine ⟨?_, ?_, ?_⟩
  · show (h.cells ++ [readCell h activatedAddr]).getD h.cells.length [] = _
    rw [List.getD_eq_getElem?_getD, List.getElem?_append_right (Nat.le_refl _)]
    simp
  · intro b hb
    show (h.cells ++ [readCell h activatedAddr]).getD b [] = h.cells.getD b []
    rw [List.getD_eq_getElem?_getD, List.getElem?_append_left hb,
      List.getD_eq_getElem?_getD]
  · intro v
    have haddr : h.cells.length ≠ activatedAddr := by
      intro hlen
      exact hne (List.eq_nil_of_length_eq_zero hlen)
    show ((h.cells ++ [readCell h activatedAddr]).set h.cells.length v).getD
        activatedAddr [] = h.cells.getD activatedAddr []
    rw [List.getD_eq_getElem?_getD, List.getElem?_set_ne haddr,
      List.getElem?_append_left, List.getD_eq_getElem?_getD]
    rw [activatedAddr]
    exact Nat.pos_of_ne_zero fun h0 => hne (List.eq_nil_of_length_eq_zero h0)

/-- Witness for claim C9 at a concrete heap: the global set holds one
module name, the snapshot equals it, and adding to the snapshot leaves
the global untouched. -/
theorem claim_C9_witness :
    readCell (get_activated_modules_obj ⟨[["sklearn.ensemble"]]⟩).2
        (get_activated_modules_obj ⟨[["sklearn.ensemble"]]⟩).1
      = readCell ⟨[["sklearn.ensemble"]]⟩ activatedAddr
    ∧ (∀ b, b < (PyHeap.mk [["sklearn.ensemble"]]).cells.length →
        readCell (get_activated_modules_obj ⟨[["sklearn.ensemble"]]⟩).2 b
          = readCell ⟨[["sklearn.ensemble"]]⟩ b)
    ∧ ∀ v, readCell
        (writeCell (get_activated_modules_obj ⟨[["sklearn.ensemble"]]⟩).2
          (get_activated_modules_obj ⟨[["sklearn.ensemble"]]⟩).1 v) activatedAddr
      = readCell ⟨[["sklearn.ensemble"]]⟩ activatedAddr :=
  claim_C9 ⟨[["sklearn.ensemble"]]⟩ (by decide)

/-- Claim C6, counterexample: `is_cuml_accel_available` catches only
`ImportError` (line 30).  When the attempted `import cuml.accel` fails
with any other exception, the function returns no boolean at all: the
exception propagates to the caller. -/
theorem claim_C6_counterexample :
    is_cuml_accel_available envImportCrash ≠ .ok true
    ∧ is_cuml_accel_available envImportCrash ≠ .ok false
    ∧ is_cuml_accel_available envImportCrash
        = .error "RuntimeError: CUDA driver initialization failed" :=
  ⟨fun h => Except.noConfusion h, fun h => Except.noConfusion h, rfl⟩

/-- Claim C6 (amended): `is_cuml_accel_available` takes no input beyond
the state of the external world; it returns `True` when
`import cuml.accel` succeeds and `False` when that import raises
`ImportError` (the unavailable-package case), which is the only failure
it converts to a boolean; a failure of the import attempt that is not
an `ImportError` propagates to the caller. -/
theorem claim_C6 :
    (∀ env : Env, env.cumlImport = .ok →
      is_cuml_accel_available env = .ok true)
    ∧ (∀ env : Env, env.cumlImport = .importError →
      is_cuml_accel_available env = .ok false)
    ∧ (∀ (env : Env) (e : String), env.cumlImport = .raises e →
      is_cuml_accel_available env = .error e) := by
  refine ⟨?_, ?_, ?_⟩
  · intro env h
    rw [is_cuml_accel_available, h]
  · intro env h
    rw [is_cuml_accel_available, h]
  · intro env e h
    rw [is_cuml_accel_available, h]

/-- Witness for claim C6: the package is absent (`ImportError`), and
the function returns `False`. -/
theorem claim_C6_witness :
    is_cuml_accel_available envUnavailable = .ok false :=
  claim_C6.2.1 envUnavailable rfl

/-! ## The demo CLI -/

/-- A Python exception, as its type name and message. -/
structure PyErr where
  ty : String
  msg : String
deriving DecidableEq

/-- The observable arguments of the one `TabularPredictor(...).fit(...)`
call made by `_run_autogluon_demo` (the predictor itself is an opaque
external collaborator).  `hyperparameters` lists the keys of the
hyperparameter dict passed to `fit`; in the source each key maps to the
empty dict `\x7b\x7d`. -/
structure FitCall where
  label : String
  path : String
  time_limit : Nat
  hyperparameters : List String
  num_bag_folds : Nat
  num_stack_levels : Nat
  num_gpus : Int
  verbosity : Nat
deriving DecidableEq

/-- Embedding of `_run_autogluon_demo` (lines 12-54 of
`demo-cuml-accel.py`): the `match model` statement dispatches on the
model code, fitting with hyperparameter key `RF`, `KNN` or `LR`, and
raises `ValueError(f"Invalid model: ...")` for any other string. -/
def _run_autogluon_demo (model : String) (num_gpus : Int) :
    Except PyErr FitCall :=
  if model = "rf" then
    .ok ⟨"target", "/tmp/demo_rf", 15, ["RF"], 0, 0, num_gpus, 2⟩
  else if model = "knn" then
    .ok ⟨"target", "/tmp/demo_knn", 15, ["KNN"], 0, 0, num_gpus, 2⟩
  else if model = "lr" then
    .ok ⟨"target", "/tmp/demo_lr", 15, ["LR"], 0, 0, num_gpus, 2⟩
  else
    .error ⟨"ValueError", "Invalid model: " ++ model⟩

/-- Claim C7: in the demo, every model string outside `rf`, `knn`, `lr`
makes the run raise a `ValueError`, and the three supported codes fit
the predictor with the hyperparameter keys `RF`, `KNN` and `LR`
respectively. -/
theorem claim_C7 :
    (∀ (model : String) (g : Int),
      model ≠ "rf" → model ≠ "knn" → model ≠ "lr" →
      _run_autogluon_demo model g
        = .error ⟨"ValueError", "Invalid model: " ++ model⟩)
    ∧ ∀ g : Int,
        Except.map FitCall.hyperparameters (_run_autogluon_demo "rf" g)
          = .ok ["RF"]
        ∧ Except.map FitCall.hyperparameters (_run_autogluon_demo "knn" g)
          = .ok ["KNN"]
        ∧ Except.map FitCall.hyperparameters (_run_autogluon_demo "lr" g)
          = .ok ["LR"] := by
  constructor
  · intro model g h1 h2 h3
    rw [_run_autogluon_demo, if_neg h1, if_neg h2, if_neg h3]
  · intro g
    exact ⟨rfl, rfl, rfl⟩

/-- Witness for claim C7: the unsupported model code `"xgb"` raises a
`ValueError`. -/
theorem claim_C7_witness :
    _run_autogluon_demo "xgb" 1
      = .error ⟨"ValueError", "Invalid model: xgb"⟩ :=
  claim_C7.1 "xgb" 1 (by decide) (by decide) (by decide)
